import Mathlib

/-!
Verification of the paperlog logging pipeline core
(src/logger/mod.rs and src/logger/log_data.rs).

Strings are embedded at character granularity (`List Char`), matching the
Rust code's use of `str::chars()` (character-count, not byte-count,
semantics).  Fallible operations return `Option`/`Except`; a library
panic (the `itertools::chunks(0)` assertion) is embedded as `none`.
-/

namespace Paperlog

/-- Modelled from the spec: `LogLevel` lives in `crate::log_level`, whose
source is not part of the core under verification; §3 describes it as an
ordered enumeration Trace < Debug < Info < Warn < Error. -/
inductive LogLevel where
  | Trace
  | Debug
  | Info
  | Warn
  | Error
deriving DecidableEq, Repr

/-- Modelled from the spec: the `Display` rendering of a level used by
`LogData::format`; the concrete strings are outside src, rendered here by
constructor name. -/
def LogLevel.display : LogLevel → String
  | .Trace => "TRACE"
  | .Debug => "DEBUG"
  | .Info => "INFO"
  | .Warn => "WARN"
  | .Error => "ERROR"

/-- Modelled from the spec: `LogLevel::short()` used by the io renderings;
the concrete strings are outside src, rendered here by first letter. -/
def LogLevel.short : LogLevel → String
  | .Trace => "T"
  | .Debug => "D"
  | .Info => "I"
  | .Warn => "W"
  | .Error => "E"

/-- Embeds `LogData` (log_data.rs): level, optional tag, message text,
capture timestamp, and source location.  The message is kept as a list of
characters; the `chrono::DateTime<Utc>` timestamp is abstracted to an
opaque capture instant (`Nat`). -/
structure LogData where
  level : LogLevel
  tag : Option String
  message : List Char
  timestamp : Nat
  file : String
  line : Nat
  column : Nat
  function_name : Option String
deriving DecidableEq, Repr

/-- Embeds `DEFAULT_TAG` (log_data.rs): the reserved tag used to display an
absent tag. -/
def DEFAULT_TAG : String := "GLOBAL"

/-- Embeds `log.message.split("\n")` from `split_str_into_chunks`: Rust's
`str::split` on a one-character pattern.  The empty string yields `[""]`;
`"\n"` yields `["", ""]`; separators are not kept. -/
def splitLines : List Char → List (List Char)
  | [] => [[]]
  | c :: rest =>
    match splitLines rest with
    | [] => [[]]
    | l :: ls => if c = '\n' then [] :: l :: ls else (c :: l) :: ls

/-- Inverse of `splitLines`: re-join lines with a line break between
consecutive lines (used to state the reconstruction property). -/
def joinLines : List (List Char) → List Char
  | [] => []
  | [l] => l
  | l :: l2 :: ls => l ++ '\n' :: joinLines (l2 :: ls)

/-- Embeds `s.chars().chunks(max_str_len)` from `split_str_into_chunks`
for `max_str_len ≥ 1`: successive groups of at most `maxLen` characters;
an empty line yields no chunks at all.  (`chunks(0)` asserts in itertools;
that case is handled in `split_str_into_chunks` itself.) -/
def chunkLine (maxLen : Nat) : List Char → List (List Char)
  | [] => []
  | c :: rest =>
    (c :: rest.take (maxLen - 1)) :: chunkLine maxLen (rest.drop (maxLen - 1))
termination_by s => s.length
decreasing_by
  simp only [List.length_drop, List.length_cons]
  omega

/-- Embeds the per-entry body of `split_str_into_chunks`: split the
message on line breaks, chunk each line, and emit one `LogData` per chunk
copying every field but `message` from the source entry
(`LogData { message: chunk, ..log.clone() }`). -/
def chunkEntry (maxLen : Nat) (log : LogData) : List LogData :=
  (splitLines log.message).flatMap fun line =>
    (chunkLine maxLen line).map fun chunk => { log with message := chunk }

/-- The chunks of one entry grouped by source line (the structure the
emission order of `chunkEntry` follows). -/
def entryChunkLines (maxLen : Nat) (log : LogData) : List (List (List Char)) :=
  (splitLines log.message).map (chunkLine maxLen)

/-- Embeds `split_str_into_chunks` (mod.rs lines 273–294): flat-maps
`chunkEntry` over the drained queue.  With `max_str_len == 0` and at least
one entry present, `s.chars().chunks(0)` hits the itertools size
assertion when the iterator is consumed; that panic is embedded as
`none`. -/
def split_str_into_chunks (queue : List LogData) (maxLen : Nat) :
    Option (List LogData) :=
  if maxLen = 0 ∧ queue ≠ [] then none
  else some (queue.flatMap (chunkEntry maxLen))

/-- A context registry state: the `context_map: HashMap<String, BufWriter<File>>`
of `LoggerThread`, with open handles abstracted to identifiers, plus a
counter supplying the fresh identifier the next `File::create` returns. -/
structure ContextRegistry where
  context_map : List (String × Nat)
  next_handle : Nat
deriving DecidableEq, Repr

/-- `HashMap::insert` on the association-list embedding of `context_map`:
replaces the value of an existing key, otherwise appends the binding. -/
def mapInsert (k : String) (v : Nat) : List (String × Nat) → List (String × Nat)
  | [] => [(k, v)]
  | (k2, v2) :: rest =>
    if k2 = k then (k, v) :: rest else (k2, v2) :: mapInsert k v rest

/-- `HashMap::get` on the association-list embedding of `context_map`. -/
def mapLookup (k : String) : List (String × Nat) → Option Nat
  | [] => none
  | (k2, v2) :: rest => if k2 = k then some v2 else mapLookup k rest

/-- Embeds `LoggerThread::add_context` (mod.rs lines 193–206), success
path: it unconditionally calls `File::create` (modelled as taking the
fresh handle `next_handle`) and inserts the new handle into
`context_map`, replacing any handle already stored for the tag.  There is
no existence check before the create/insert. -/
def add_context (tag : String) (st : ContextRegistry) : ContextRegistry :=
  { context_map := mapInsert tag st.next_handle st.context_map
    next_handle := st.next_handle + 1 }

/-- The registry of a freshly constructed `LoggerThread` (`HashMap::new`). -/
def emptyRegistry : ContextRegistry := { context_map := [], next_handle := 0 }

/-- Worker lifecycle state: the `inited: AtomicBool` flag of
`LoggerThread` plus a count of consumer threads spawned so far. -/
structure WorkerState where
  inited : Bool
  threads_spawned : Nat
deriving DecidableEq, Repr

/-- Embeds `LoggerThread::init` (mod.rs lines 116–137): if `inited` is
already set it bails with `"LoggerThread already initialized"` before any
thread is spawned; otherwise it sets `inited` and spawns the single
consumer thread (counted in `threads_spawned`). -/
def LoggerThread.init (st : WorkerState) : Except String WorkerState :=
  if st.inited then Except.error "LoggerThread already initialized"
  else Except.ok { inited := true, threads_spawned := st.threads_spawned + 1 }

/-- A sink as `do_log` sees one: consume one entry, possibly failing
(`file_logger::do_log` / `sink_logger::do_log`; the infallible sinks are
the always-`ok` instances). -/
def Sink : Type := LogData → Except String Unit

/-- Recursion for `do_log` carrying the position of the next sink:
each sink is invoked in order; the `?` operator returns the first error
immediately, so the sinks after a failing one are never invoked.  Returns
the positions of the sinks that received the entry together with the
result. -/
def do_logAux (log : LogData) : List Sink → Nat → List Nat × Except String Unit
  | [], _ => ([], Except.ok ())
  | s :: rest, i =>
    match s log with
    | Except.error e => ([i], Except.error e)
    | Except.ok () =>
      let r := do_logAux log rest (i + 1)
      (i :: r.1, r.2)

/-- Embeds `do_log` (mod.rs lines 296–310): forwards the entry to each
enabled sink in order, with `?` after every fallible sink call, so the
first sink error is returned at once and the remaining sinks are
skipped. -/
def do_log (sinks : List Sink) (log : LogData) : List Nat × Except String Unit :=
  do_logAux log sinks 0

/-- Embeds the dispatch loop of `log_thread` (mod.rs lines 239–241):
`for log in split_logs { do_log(log, ...)? }` — the `?` propagates the
first dispatch error out of `log_thread`, ending the loop with the
remaining chunks undispatched. -/
def dispatchAll (sinks : List Sink) : List LogData → Except String Unit
  | [] => Except.ok ()
  | l :: rest =>
    match (do_log sinks l).2 with
    | Except.error e => Except.error e
    | Except.ok () => dispatchAll sinks rest

/-- Observable outcome of one pass of the `log_thread` loop body over a
drained batch: the chunks handed to `do_log` in order, the value of
`logs_since_last_flush` at the moment the flush triggers are evaluated,
its value after the trigger check, and whether the counters were reset. -/
structure IterResult where
  dispatched : List LogData
  countAtCheck : Nat
  newCount : Nat
  didReset : Bool
deriving DecidableEq, Repr

/-- Embeds one iteration of the `log_thread` loop body (mod.rs lines
226–258) on a drained batch: chunk the whole batch, dispatch every chunk,
then add the batch length to `logs_since_last_flush` once (only when the
batch is non-empty), and only then evaluate the two flush triggers —
`last_log_time.elapsed() > 1s` (abstracted to the boolean `elapsed`) or
`logs_since_last_flush > 50` — resetting both counters when either
trips.  The counter is never touched between individual dispatches. -/
def log_thread_iter (maxLen : Nat) (count : Nat) (queue : List LogData)
    (elapsed : Bool) : Option IterResult :=
  match split_str_into_chunks queue maxLen with
  | none => none
  | some chunks =>
    let count2 := if queue.isEmpty then count else count + queue.length
    let trip := decide (50 < count2) || elapsed
    some { dispatched := chunks
           countAtCheck := count2
           newCount := if trip then 0 else count2
           didReset := trip }

/-- Modelled from the spec: `SemaphoreLite` (`crate::semaphore_lite`,
source not under src/) is the counting wake primitive of §4.1/§4.2 —
`signal` increments the count, `wait` blocks until the count is positive
and then consumes one unit. -/
structure SemaphoreLite where
  count : Nat
deriving DecidableEq, Repr

/-- `SemaphoreLite::signal`: increment the wake count. -/
def SemaphoreLite.signal (s : SemaphoreLite) : SemaphoreLite :=
  { count := s.count + 1 }

/-- `SemaphoreLite::wait` as a non-blocking step: `some` of the
decremented semaphore when a wake is pending (the wait returns), `none`
when the caller would block. -/
def SemaphoreLite.tryWait (s : SemaphoreLite) : Option SemaphoreLite :=
  if s.count = 0 then none else some { count := s.count - 1 }

/-- The shared state of the logging pipeline: `log_queue.0` (the queue's
wake semaphore), `log_queue.1` (the pending-entry buffer),
`flush_semaphore`, and the record of entries dispatched so far by the
worker. -/
structure LoggerSystem where
  logSem : SemaphoreLite
  queue : List LogData
  flushSem : SemaphoreLite
  dispatched : List LogData
deriving DecidableEq, Repr

/-- The state right after `LoggerThread::new`: empty queue, both
semaphores unsignaled, nothing dispatched. -/
def initialSystem : LoggerSystem :=
  { logSem := { count := 0 }
    queue := []
    flushSem := { count := 0 }
    dispatched := [] }

/-- Embeds `queue_log` (mod.rs lines 151–172): push the entry into
`log_queue.1` and signal `log_queue.0`, the queue's wake semaphore. -/
def queue_log (e : LogData) (st : LoggerSystem) : LoggerSystem :=
  { st with queue := st.queue ++ [e], logSem := SemaphoreLite.signal st.logSem }

/-- Embeds `wait_for_flush` (mod.rs lines 264–266): it executes
`self.log_queue.0.wait()` — a wait on the QUEUE's wake semaphore, the one
`queue_log` signals on every submission — not on `flush_semaphore`, which
`log_thread` signals when it observes the queue empty and which no code
ever waits on.  `some` is the state after the wait returns; `none` means
the caller blocks. -/
def wait_for_flush (st : LoggerSystem) : Option LoggerSystem :=
  match SemaphoreLite.tryWait st.logSem with
  | none => none
  | some s2 => some { st with logSem := s2 }

/-- Embeds one drain-dispatch pass of `log_thread` over the shared state
(mod.rs lines 226–258), stopping right after the empty-queue check: the
drained batch is chunked and dispatched, and with the queue observed
empty the worker signals `flush_semaphore` (it then waits on
`log_queue.0` for the next submission). -/
def workerPass (maxLen : Nat) (st : LoggerSystem) : Option LoggerSystem :=
  match split_str_into_chunks st.queue maxLen with
  | none => none
  | some chunks =>
    some { st with
           queue := []
           dispatched := st.dispatched ++ chunks
           flushSem := SemaphoreLite.signal st.flushSem }

/-- Modelled from the spec: the rendering of the opaque capture
timestamp; the concrete `chrono` date formatting is a sink-format detail
outside the verified core (§1). -/
def timestampDisplay (t : Nat) : String := toString t

/-- Embeds `LogData::format` (log_data.rs lines 44–56): the verbose line
`{level} {time} [{tag}] [{file}:{line}:{column} @ {function_name}]
{message}`, with an absent tag rendered as `DEFAULT_TAG` and an absent
function name rendered as the literal `"default"`. -/
def LogData.format (d : LogData) : String :=
  LogLevel.display d.level ++ " " ++ timestampDisplay d.timestamp ++
    " [" ++ d.tag.getD DEFAULT_TAG ++ "] [" ++ d.file ++ ":" ++
    toString d.line ++ ":" ++ toString d.column ++ " @ " ++
    d.function_name.getD "default" ++ "] " ++ String.mk d.message

/-- Embeds `LogData::write_to_io` (log_data.rs lines 58–71): same shape
as `format` but with the short level rendering, and `writeln!` appends
the line terminator. -/
def LogData.write_to_io (d : LogData) : String :=
  LogLevel.short d.level ++ " " ++ timestampDisplay d.timestamp ++
    " [" ++ d.tag.getD DEFAULT_TAG ++ "] [" ++ d.file ++ ":" ++
    toString d.line ++ ":" ++ toString d.column ++ " @ " ++
    d.function_name.getD "default" ++ "] " ++ String.mk d.message ++ "\n"

/-- Embeds `LogData::write_compact_to_io` (log_data.rs lines 72–84): the
compact rendering omits the tag component but keeps the source location
and the same `function_name` fallback to the literal `"default"`. -/
def LogData.write_compact_to_io (d : LogData) : String :=
  LogLevel.short d.level ++ " " ++ timestampDisplay d.timestamp ++
    " [" ++ d.file ++ ":" ++ toString d.line ++ ":" ++
    toString d.column ++ " @ " ++
    d.function_name.getD "default" ++ "] " ++ String.mk d.message ++ "\n"

/-- A concrete entry used to evaluate the embedded operations. -/
def sampleEntry : LogData :=
  { level := LogLevel.Info
    tag := none
    message := ['h', 'i']
    timestamp := 0
    file := "main.rs"
    line := 1
    column := 1
    function_name := none }

/-- A concrete entry whose message is the empty string. -/
def emptyMsgEntry : LogData := { sampleEntry with message := [] }

/-- A concrete entry with a ten-character message (the §8 scenario). -/
def tenCharEntry : LogData :=
  { sampleEntry with
    message := ['0', '1', '2', '3', '4', '5', '6', '7', '8', '9'] }

/-- The §8 scenario batch: 120 entries of 10 characters each. -/
def batch120 : List LogData := List.replicate 120 tenCharEntry

/-- A concrete entry whose message has an empty middle line
(`"a\n\nb"`). -/
def doubleBreakEntry : LogData :=
  { sampleEntry with message := ['a', '\n', '\n', 'b'] }

/-- A concrete entry whose message is `"a\nb"`. -/
def singleBreakEntry : LogData :=
  { sampleEntry with message := ['a', '\n', 'b'] }

/-- A concrete entry with two non-empty lines (`"ab\nc"`). -/
def twoLineEntry : LogData :=
  { sampleEntry with message := ['a', 'b', '\n', 'c'] }

/-- A sink that fails on every entry. -/
def failingSink : Sink := fun _ => Except.error "sink failure"

/-- A sink that accepts every entry. -/
def succeedingSink : Sink := fun _ => Except.ok ()

theorem splitLines_ne_nil (s : List Char) : splitLines s ≠ [] := by
  cases s with
  | nil => simp [splitLines]
  | cons c rest =>
    simp only [splitLines]
    cases h : splitLines rest with
    | nil => simp
    | cons l ls =>
      by_cases hc : c = '\n' <;> simp [hc]

theorem joinLines_splitLines (s : List Char) :
    joinLines (splitLines s) = s := by
  induction s with
  | nil => simp [splitLines, joinLines]
  | cons c rest ih =>
    simp only [splitLines]
    cases h : splitLines rest with
    | nil => exact absurd h (splitLines_ne_nil rest)
    | cons l ls =>
      rw [h] at ih
      by_cases hc : c = '\n'
      · subst hc
        simp only [if_pos rfl, joinLines]
        cases ls with
        | nil => simpa [joinLines] using ih
        | cons l2 ls2 => simpa [joinLines] using ih
      · simp only [if_neg hc]
        cases ls with
        | nil => simpa [joinLines] using ih
        | cons l2 ls2 => simpa [joinLines] using ih

theorem chunkLine_flatten (maxLen : Nat) (s : List Char) :
    (chunkLine maxLen s).flatten = s := by
  induction s using chunkLine.induct maxLen with
  | case1 => simp [chunkLine]
  | case2 c rest ih =>
    simp only [chunkLine, List.flatten_cons, ih]
    simp [List.cons_append, List.take_append_drop]

theorem mem_chunkLine_length_le (maxLen : Nat) (hpos : 0 < maxLen)
    (s : List Char) (chunk : List Char) (h : chunk ∈ chunkLine maxLen s) :
    chunk.length ≤ maxLen := by
  induction s using chunkLine.induct maxLen with
  | case1 => simp [chunkLine] at h
  | case2 c rest ih =>
    simp only [chunkLine, List.mem_cons] at h
    rcases h with h | h
    · subst h
      have := List.length_take_le (maxLen - 1) rest
      simp only [List.length_cons]
      omega
    · exact ih h

theorem mem_chunkLine_subset (maxLen : Nat) (s : List Char)
    (chunk : List Char) (h : chunk ∈ chunkLine maxLen s) :
    ∀ ch ∈ chunk, ch ∈ s := by
  induction s using chunkLine.induct maxLen with
  | case1 => simp [chunkLine] at h
  | case2 c rest ih =>
    simp only [chunkLine, List.mem_cons] at h
    rcases h with h | h
    · subst h
      intro ch hch
      simp only [List.mem_cons] at hch
      rcases hch with hch | hch
      · simp [hch]
      · exact List.mem_cons_of_mem c (List.mem_of_mem_take hch)
    · intro ch hch
      exact List.mem_cons_of_mem c (List.mem_of_mem_drop (ih h ch hch))

theorem mem_splitLines_no_newline (s : List Char) :
    ∀ line ∈ splitLines s, '\n' ∉ line := by
  induction s with
  | nil =>
    intro line h
    simp only [splitLines, List.mem_singleton] at h
    simp [h]
  | cons c rest ih =>
    intro line h
    simp only [splitLines] at h
    cases heq : splitLines rest with
    | nil => exact absurd heq (splitLines_ne_nil rest)
    | cons l ls =>
      rw [heq] at h
      rw [heq] at ih
      by_cases hc : c = '\n'
      · simp only [hc, if_true, List.mem_cons] at h
        rcases h with h | h | h
        · simp [h]
        · exact ih line (by simp [h])
        · exact ih line (by simp [h])
      · simp only [hc, if_false, List.mem_cons] at h
        rcases h with h | h
        · subst h
          intro hmem
          simp only [List.mem_cons] at hmem
          rcases hmem with hmem | hmem
          · exact hc hmem.symm
          · exact ih l (List.mem_cons_self l ls) hmem
        · exact ih line (List.mem_cons_of_mem l h)

theorem mapLookup_mapInsert (k : String) (v : Nat) (m : List (String × Nat)) :
    mapLookup k (mapInsert k v m) = some v := by
  induction m with
  | nil => simp [mapInsert, mapLookup]
  | cons p rest ih =>
    obtain ⟨k2, v2⟩ := p
    by_cases h : k2 = k
    · simp [mapInsert, mapLookup, h]
    · simp [mapInsert, mapLookup, h, ih]

/-- Claim C3, counterexample: chunking a single entry whose message is
the empty string with `max_len = 1` yields zero output entries, not the
single empty-message entry the claim requires
(`"".split("\n")` gives one empty line, and `chunks` over an empty
character iterator yields no chunks). -/
theorem c3_counterexample :
    split_str_into_chunks [emptyMsgEntry] 1 = some [] ∧
    Option.map List.length (split_str_into_chunks [emptyMsgEntry] 1) ≠ some 1 := by
  have h : split_str_into_chunks [emptyMsgEntry] 1 = some [] := by
    simp [split_str_into_chunks, chunkEntry, emptyMsgEntry, sampleEntry,
      splitLines, chunkLine]
  refine ⟨h, ?_⟩
  rw [h]
  simp

/-- Claim C3, amended: for every `max_len > 0`, chunking an entry whose
message is the empty string yields zero output entries — the entry is
dropped entirely, rather than producing one empty-message entry. -/
theorem c3_amended_empty_message_dropped (log : LogData) (maxLen : Nat)
    (hpos : 0 < maxLen) (hmsg : log.message = []) :
    split_str_into_chunks [log] maxLen = some [] := by
  have hne : ¬maxLen = 0 := by omega
  simp [split_str_into_chunks, hne, chunkEntry, hmsg, splitLines, chunkLine]

/-- Witness for the amended claim C3 at `max_len = 1` and a concrete
empty-message entry. -/
theorem c3_amended_witness :
    0 < 1 ∧ split_str_into_chunks [emptyMsgEntry] 1 = some [] :=
  ⟨Nat.one_pos, c3_amended_empty_message_dropped emptyMsgEntry 1 Nat.one_pos rfl⟩

/-- Claim C8: calling the chunker with `max_len = 0` on any non-empty
batch is an error (`itertools` `chunks(0)` asserts, embedded as `none`);
it never returns a list of empty-message entries. -/
theorem c8_zero_max_len_is_error (queue : List LogData) (hne : queue ≠ []) :
    split_str_into_chunks queue 0 = none := by
  simp [split_str_into_chunks, hne]

/-- Witness for claim C8 at a concrete one-entry batch. -/
theorem c8_witness :
    ([sampleEntry] : List LogData) ≠ [] ∧
    split_str_into_chunks [sampleEntry] 0 = none := by
  refine ⟨by simp, c8_zero_max_len_is_error [sampleEntry] (by simp)⟩

/-- Claim C5, counterexample: `add_context` is not idempotent — a second
call for tag `"A"` creates a second handle (`next_handle` reaches 2) and
replaces the first one in the map (`"A"` maps to handle 1, no longer to
handle 0), because `add_context` calls `File::create` and
`HashMap::insert` unconditionally, with no existence check. -/
theorem c5_counterexample :
    add_context "A" (add_context "A" emptyRegistry) ≠ add_context "A" emptyRegistry ∧
    mapLookup "A" (add_context "A" (add_context "A" emptyRegistry)).context_map = some 1 ∧
    mapLookup "A" (add_context "A" emptyRegistry).context_map = some 0 ∧
    (add_context "A" (add_context "A" emptyRegistry)).next_handle = 2 := by
  refine ⟨?_, ?_, ?_, ?_⟩ <;> decide

/-- Claim C5, amended: every `add_context` call creates a fresh handle
and inserts it for the tag, replacing any handle already stored, so after
each call the map holds exactly the newly created handle for that tag (at
most one handle is mapped per tag at any time), but a repeated call
creates a new handle rather than reusing the existing one. -/
theorem c5_amended_add_context_replaces (st : ContextRegistry) (tag : String) :
    (add_context tag st).next_handle = st.next_handle + 1 ∧
    mapLookup tag (add_context tag st).context_map = some st.next_handle ∧
    mapLookup tag (add_context tag (add_context tag st)).context_map =
      some (st.next_handle + 1) := by
  refine ⟨rfl, ?_, ?_⟩ <;> simp [add_context, mapLookup_mapInsert]

/-- Claim C9: on an uninitialized worker, `init` succeeds, sets the
init-once flag and spawns exactly one consumer thread; running `init`
again on the resulting state fails deterministically with the
`"LoggerThread already initialized"` error (the bail happens before any
thread spawn, so no second consumer is started). -/
theorem c9_init_once (st : WorkerState) (h : st.inited = false) :
    LoggerThread.init st =
      Except.ok { inited := true, threads_spawned := st.threads_spawned + 1 } ∧
    LoggerThread.init { inited := true, threads_spawned := st.threads_spawned + 1 } =
      Except.error "LoggerThread already initialized" := by
  constructor
  · simp [LoggerThread.init, h]
  · simp [LoggerThread.init]

/-- Witness for claim C9 at the freshly constructed worker state. -/
theorem c9_witness :
    ({ inited := false, threads_spawned := 0 } : WorkerState).inited = false ∧
    (LoggerThread.init { inited := false, threads_spawned := 0 } =
        Except.ok { inited := true, threads_spawned := 1 } ∧
      LoggerThread.init { inited := true, threads_spawned := 1 } =
        Except.error "LoggerThread already initialized") :=
  ⟨rfl, c9_init_once { inited := false, threads_spawned := 0 } rfl⟩

/-- Claim C10: when `function_name` is absent, the verbose rendering
(`format`, `write_to_io`) and the compact rendering
(`write_compact_to_io`) each produce exactly the line they would produce
for the literal function name `"default"` — the absent name is rendered
as the string `"default"` in the function-name position. -/
theorem c10_missing_function_name_renders_default (d : LogData)
    (h : d.function_name = none) :
    LogData.format d = LogData.format { d with function_name := some "default" } ∧
    LogData.write_to_io d =
      LogData.write_to_io { d with function_name := some "default" } ∧
    LogData.write_compact_to_io d =
      LogData.write_compact_to_io { d with function_name := some "default" } := by
  refine ⟨?_, ?_, ?_⟩ <;>
    simp [LogData.format, LogData.write_to_io, LogData.write_compact_to_io, h]

/-- Witness for claim C10 at a concrete entry without a function name. -/
theorem c10_witness :
    sampleEntry.function_name = none ∧
    (LogData.format sampleEntry =
        LogData.format { sampleEntry with function_name := some "default" } ∧
      LogData.write_to_io sampleEntry =
        LogData.write_to_io { sampleEntry with function_name := some "default" } ∧
      LogData.write_compact_to_io sampleEntry =
        LogData.write_compact_to_io { sampleEntry with function_name := some "default" }) :=
  ⟨rfl, c10_missing_function_name_renders_default sampleEntry rfl⟩

/-- Claim C4, counterexample: an empty line emits no chunk, so its line
breaks are lost from the emitted output.  For the message `"a\n\nb"`
(with `max_len = 10`) the emitted chunks are `"a"` then `"b"` — one
adjacent pair, belonging to different source lines — so the claim's
rejoin reinserts exactly one line break and yields `"a\nb"`, not the
original `"a\n\nb"`.  Moreover the emitted entry lists for `"a\n\nb"`
and `"a\nb"` are identical while the source messages differ, so no
reconstruction from the emitted chunks whatsoever can recover both
originals. -/
theorem c4_counterexample :
    (chunkEntry 10 doubleBreakEntry).map LogData.message = [['a'], ['b']] ∧
    joinLines [['a'], ['b']] ≠ doubleBreakEntry.message ∧
    chunkEntry 10 doubleBreakEntry = chunkEntry 10 singleBreakEntry ∧
    doubleBreakEntry.message ≠ singleBreakEntry.message := by
  refine ⟨?_, by decide, ?_, by decide⟩
  · simp [chunkEntry, doubleBreakEntry, sampleEntry, splitLines, chunkLine]
  · simp [chunkEntry, doubleBreakEntry, singleBreakEntry, sampleEntry,
      splitLines, chunkLine]

/-- Claim C4, amended: for every entry whose message contains no empty
line (every line obtained by splitting on the line-break character is
non-empty — no leading or trailing break and no two consecutive breaks)
and every `max_len > 0`, every source line contributes at least one
emitted chunk, the flat emission order of `chunkEntry` is exactly the
line-by-line chunk order, and joining each line's chunk messages and
reinserting a line break between the chunk groups of consecutive lines
reconstructs the original message exactly.  (For messages with empty
lines the reconstruction fails: such lines emit no chunks and their
breaks are lost, as the counterexample shows.) -/
theorem c4_amended_rejoin_no_empty_lines (log : LogData) (maxLen : Nat)
    (hpos : 0 < maxLen)
    (hlines : ∀ line ∈ splitLines log.message, line ≠ []) :
    (∀ group ∈ entryChunkLines maxLen log, group ≠ []) ∧
    (chunkEntry maxLen log).map LogData.message =
      (entryChunkLines maxLen log).flatten ∧
    joinLines ((entryChunkLines maxLen log).map List.flatten) = log.message := by
  refine ⟨?_, ?_, ?_⟩
  · intro group hgroup
    simp only [entryChunkLines, List.mem_map] at hgroup
    obtain ⟨line, hline, rfl⟩ := hgroup
    have hne := hlines line hline
    cases line with
    | nil => exact absurd rfl hne
    | cons c cs => simp [chunkLine]
  · simp only [chunkEntry, entryChunkLines]
    induction splitLines log.message with
    | nil => simp
    | cons l ls ih =>
      simp only [List.flatMap_cons, List.map_cons, List.map_append,
        List.flatten_cons, ih, List.map_map]
      congr 1
      have : ∀ chunk ∈ chunkLine maxLen l,
          (LogData.message ∘ fun chunk => { log with message := chunk }) chunk =
            id chunk := by
        intro chunk _
        rfl
      rw [List.map_congr_left this, List.map_id]
  · have h1 : (entryChunkLines maxLen log).map List.flatten =
        splitLines log.message := by
      simp only [entryChunkLines, List.map_map]
      have : ∀ l ∈ splitLines log.message,
          (List.flatten ∘ chunkLine maxLen) l = id l := by
        intro l _
        simp [chunkLine_flatten]
      rw [List.map_congr_left this, List.map_id]
    rw [h1, joinLines_splitLines]

/-- Witness for the amended claim C4 at `max_len = 1` and a concrete
entry with two non-empty lines, one of which splits into two chunks. -/
theorem c4_amended_witness :
    0 < 1 ∧
    ((∀ group ∈ entryChunkLines 1 twoLineEntry, group ≠ []) ∧
      (chunkEntry 1 twoLineEntry).map LogData.message =
        (entryChunkLines 1 twoLineEntry).flatten ∧
      joinLines ((entryChunkLines 1 twoLineEntry).map List.flatten) =
        twoLineEntry.message) :=
  ⟨Nat.one_pos,
    c4_amended_rejoin_no_empty_lines twoLineEntry 1 Nat.one_pos (by decide)⟩

/-- Claim C6: every entry emitted by `split_str_into_chunks` for
`max_len > 0` has a message of at most `max_len` characters containing no
line break, and agrees with some source entry of the batch on every field
other than `message`. -/
theorem c6_chunk_bounds (queue : List LogData) (maxLen : Nat)
    (res : List LogData) (out : LogData) (hpos : 0 < maxLen)
    (hres : split_str_into_chunks queue maxLen = some res) (hout : out ∈ res) :
    out.message.length ≤ maxLen ∧ '\n' ∉ out.message ∧
    ∃ src ∈ queue, out.level = src.level ∧ out.tag = src.tag ∧
      out.timestamp = src.timestamp ∧ out.file = src.file ∧
      out.line = src.line ∧ out.column = src.column ∧
      out.function_name = src.function_name := by
  have hcond : ¬(maxLen = 0 ∧ queue ≠ []) := by
    rintro ⟨h0, -⟩
    omega
  rw [split_str_into_chunks, if_neg hcond, Option.some_inj] at hres
  subst hres
  rw [List.mem_flatMap] at hout
  obtain ⟨src, hsrc, hmem⟩ := hout
  simp only [chunkEntry, List.mem_flatMap, List.mem_map] at hmem
  obtain ⟨line, hline, chunk, hchunk, rfl⟩ := hmem
  refine ⟨?_, ?_, src, hsrc, rfl, rfl, rfl, rfl, rfl, rfl, rfl⟩
  · exact mem_chunkLine_length_le maxLen hpos line chunk hchunk
  · intro hnl
    exact mem_splitLines_no_newline src.message line hline
      (mem_chunkLine_subset maxLen line chunk hchunk '\n' hnl)

/-- Witness for claim C6 at a concrete one-entry batch with
`max_len = 2`. -/
theorem c6_witness :
    0 < 2 ∧ split_str_into_chunks [sampleEntry] 2 = some [sampleEntry] ∧
    (sampleEntry.message.length ≤ 2 ∧ '\n' ∉ sampleEntry.message ∧
      ∃ src ∈ [sampleEntry], sampleEntry.level = src.level ∧
        sampleEntry.tag = src.tag ∧ sampleEntry.timestamp = src.timestamp ∧
        sampleEntry.file = src.file ∧ sampleEntry.line = src.line ∧
        sampleEntry.column = src.column ∧
        sampleEntry.function_name = src.function_name) := by
  have hres : split_str_into_chunks [sampleEntry] 2 = some [sampleEntry] := by
    simp [split_str_into_chunks, chunkEntry, sampleEntry, splitLines, chunkLine]
  exact ⟨by decide, hres,
    c6_chunk_bounds [sampleEntry] 2 [sampleEntry] sampleEntry (by decide) hres
      (by simp)⟩

theorem do_logAux_append_fail (log : LogData) (e : String) (f : Sink)
    (post : List Sink) (hf : f log = Except.error e) :
    ∀ (pre : List Sink) (i : Nat), (∀ s ∈ pre, s log = Except.ok ()) →
      do_logAux log (pre ++ f :: post) i =
        (List.range' i (pre.length + 1), Except.error e) := by
  intro pre
  induction pre with
  | nil =>
    intro i _
    simp [do_logAux, hf, List.range'_one]
  | cons s rest ih =>
    intro i hok
    have hs : s log = Except.ok () := hok s (by simp)
    simp only [List.cons_append, do_logAux, hs, List.append_eq]
    rw [ih (i + 1) fun s2 hs2 => hok s2 (by simp [hs2])]
    simp [List.range'_succ]

/-- Claim C2, counterexample: with a failing sink followed by a
succeeding sink, `do_log` invokes only the failing sink (position 0; the
succeeding sink at position 1 never receives the entry) and returns its
error, and the dispatch loop of `log_thread` exits with that error on the
first entry, leaving the second entry undispatched — because every
fallible sink call in `do_log` and the `do_log` call in the loop carry
the `?` operator. -/
theorem c2_counterexample :
    do_log [failingSink, succeedingSink] sampleEntry =
      ([0], Except.error "sink failure") ∧
    (1 : Nat) ∉ [0] ∧
    dispatchAll [failingSink, succeedingSink] [sampleEntry, emptyMsgEntry] =
      Except.error "sink failure" := by
  refine ⟨rfl, by decide, rfl⟩

/-- Claim C2, amended: a failure returned by a sink propagates out of
`do_log` immediately — the sinks before it all receive the entry, the
failing sink receives it, and the sinks after it are skipped (the
received positions are exactly `0 .. pre.length`) — and the worker loop
exits with that error on the first failing dispatch, so errors are
neither isolated per sink nor aggregated. -/
theorem c2_amended_first_error_aborts (pre post : List Sink) (f : Sink)
    (log : LogData) (rest : List LogData) (e : String)
    (hok : ∀ s ∈ pre, s log = Except.ok ())
    (hf : f log = Except.error e) :
    do_log (pre ++ f :: post) log =
      (List.range (pre.length + 1), Except.error e) ∧
    dispatchAll (pre ++ f :: post) (log :: rest) = Except.error e := by
  have h := do_logAux_append_fail log e f post hf pre 0 hok
  constructor
  · rw [do_log, h, List.range_eq_range']
  · simp only [dispatchAll, do_log, h]

/-- Witness for the amended claim C2: one succeeding sink, then the
failing sink, then another succeeding sink — the trailing sink is
skipped and the loop aborts. -/
theorem c2_amended_witness :
    do_log [succeedingSink, failingSink, succeedingSink] sampleEntry =
      (List.range 2, Except.error "sink failure") ∧
    dispatchAll [succeedingSink, failingSink, succeedingSink]
      [sampleEntry, emptyMsgEntry] = Except.error "sink failure" := by
  have h := c2_amended_first_error_aborts [succeedingSink] [succeedingSink]
    failingSink sampleEntry [emptyMsgEntry] "sink failure"
    (by
      intro s hs
      simp only [List.mem_singleton] at hs
      subst hs
      rfl)
    rfl
  simpa using h

/-- Claim C7, counterexample: with the §8 scenario — 120 ten-character
entries drained in one pass, `max_message_length = 100`, no elapsed-time
trip — the flush counter observed at the trigger check is 120, not a
value bounded by 51: the counter is incremented once by the whole batch
length after all entries are dispatched, so no reset happens after the
51st dispatched entry. -/
theorem c7_counterexample :
    Option.map IterResult.countAtCheck (log_thread_iter 100 0 batch120 false) =
      some 120 ∧
    Option.map IterResult.newCount (log_thread_iter 100 0 batch120 false) =
      some 0 ∧
    ¬(120 ≤ 51) := by
  refine ⟨rfl, rfl, by decide⟩

/-- Claim C7, amended: the worker evaluates the two flush triggers —
elapsed time over 1 second, or more than 50 entries dispatched since the
last reset — once per loop iteration, after the entire drained batch has
been dispatched; the batch length is added to the counter in one step,
either trigger tripping resets both counters, and with a batch of 120
entries the counter reaches `count + 120` at the check and the reset
happens only after the whole batch, not after the 51st entry. -/
theorem c7_amended_reset_after_whole_batch (maxLen count : Nat)
    (queue : List LogData) (elapsed : Bool) (hpos : 0 < maxLen)
    (hne : queue ≠ []) :
    log_thread_iter maxLen count queue elapsed =
      some { dispatched := queue.flatMap (chunkEntry maxLen)
             countAtCheck := count + queue.length
             newCount :=
               if decide (50 < count + queue.length) || elapsed then 0
               else count + queue.length
             didReset := decide (50 < count + queue.length) || elapsed } := by
  have hcond : ¬(maxLen = 0 ∧ queue ≠ []) := by
    rintro ⟨h0, -⟩
    omega
  have hq : queue.isEmpty = false := by
    simp [List.isEmpty_iff, hne]
  simp only [log_thread_iter, split_str_into_chunks, if_neg hcond, hq]
  simp

/-- Witness for the amended claim C7 at the §8 scenario batch. -/
theorem c7_witness :
    0 < 100 ∧ batch120 ≠ [] ∧
    log_thread_iter 100 0 batch120 false =
      some { dispatched := batch120.flatMap (chunkEntry 100)
             countAtCheck := 0 + batch120.length
             newCount :=
               if decide (50 < 0 + batch120.length) || false then 0
               else 0 + batch120.length
             didReset := decide (50 < 0 + batch120.length) || false } := by
  have hne : batch120 ≠ [] := by
    intro h
    simpa [batch120] using congrArg List.length h
  exact ⟨by decide, hne,
    c7_amended_reset_after_whole_batch 100 0 batch120 false (by decide) hne⟩

/-- Claim C1, code-bug witness: `wait_for_flush` executes
`self.log_queue.0.wait()` — a wait on the queue's wake semaphore, which
`queue_log` signals on every submission — instead of on
`flush_semaphore`, which `log_thread` signals on observing the queue
empty and which nothing ever waits on.  Concretely: submit one entry into
a fresh system and call `wait_for_flush` before the worker runs — the
call returns immediately (released by the submission's own wake signal,
not by any flush signal: `flushSem` is still at 0), while the entry is
still queued and nothing has been dispatched; it has also consumed the
wake the worker needed (`logSem` back to 0). -/
theorem c1_wait_for_flush_woken_by_submission :
    wait_for_flush (queue_log sampleEntry initialSystem) =
      some { logSem := { count := 0 }
             queue := [sampleEntry]
             flushSem := { count := 0 }
             dispatched := [] } := by
  rfl

end Paperlog
